import Mathlib

/-!
Verification of the backpack-bot sniper core (packages/server/src/services/sniper.ts
and packages/server/src/routes/sniper.ts), shallowly embedded in Lean.

Modelling conventions:
* Calendar dates (`YYYY-MM-DD` strings at UTC midnight in the source) are modelled
  as day numbers (`Nat`, days since an arbitrary epoch).  The source manipulates
  dates exclusively through `Date` objects pinned to UTC midnight, where adding one
  calendar day (`setUTCDate(getUTCDate() + 1)`) is exactly `+ 1` on the day number,
  and the lexicographic order on well-formed `YYYY-MM-DD` strings agrees with the
  numeric order on day numbers.
* Instants (`windowOpensAt`, `Date.now()`) are modelled as `Nat` milliseconds.
* The availability response body is modelled post-parsing: the division entry
  `data.payload.availability[divisionId]` is an `Option AvailTable`, and the
  per-date map `availByDate` built from `date_availability` is an association list
  from day number to remaining capacity.
* Effects (fetch, Playwright, timers) are modelled by passing their observable
  results in as explicit parameters (`Except` for fallible calls).
-/

/-- Type `DateRange` from sniper.ts: entry date (inclusive) and exit date (exclusive). -/
structure DateRange where
  startDate : Nat
  endDate : Nat
deriving DecidableEq, Repr

/-- Type `SniperStatus` from sniper.ts. -/
inductive SniperStatus where
  | pending
  | preWarming
  | watching
  | booking
  | inCart
  | failed
  | cancelled
deriving DecidableEq, Repr

/-- Type `SniperJob` from sniper.ts. -/
structure SniperJob where
  id : Nat
  permitId : String
  permitName : String
  divisionId : String
  desiredDateRanges : List DateRange
  groupSize : Nat
  windowOpensAt : Nat
  status : SniperStatus
  attempts : Nat
  message : String
  bookedRange : Option DateRange
  createdAt : Nat
  updatedAt : Nat
deriving DecidableEq, Repr

/-- Type `SniperJobRequest` from sniper.ts (client payload for job creation). -/
structure SniperJobRequest where
  permitId : String
  permitName : String
  divisionId : String
  desiredDateRanges : List DateRange
  groupSize : Nat
  windowOpensAt : Nat
deriving DecidableEq, Repr

/-- Credentials read from the environment by `getRecgovCredentials`. -/
structure Credentials where
  email : String
  password : String
deriving DecidableEq, Repr

-- ---- Constants (sniper.ts) ----

def PRE_WARM_LEAD_MS : Nat := 2 * 60 * 1000

def POLL_INTERVAL_MS : Nat := 1500

def MAX_WATCH_DURATION_MS : Nat := 5 * 60 * 1000

-- ---- expandRange (sniper.ts lines 508-517) ----

/-- The `while (current < end)` loop of `expandRange`: starting from day
`current`, push the current day and advance one calendar day until reaching
`endD`.  The loop performs exactly `endD - current` iterations; `fuel` is a
structural bound on the remaining iterations (callers pass at least that
many), keeping the definition kernel-computable. -/
def expandRangeGo (endD : Nat) : Nat → Nat → List Nat
  | 0, _ => []
  | fuel + 1, current =>
    if current < endD then current :: expandRangeGo endD fuel (current + 1) else []

/-- Function `expandRange` from sniper.ts: the individual nights of a trip,
start date inclusive, end date exclusive. -/
def expandRange (range : DateRange) : List Nat :=
  expandRangeGo range.endDate range.endDate range.startDate

theorem expandRangeGo_eq_range (endD fuel current : Nat) (h : endD - current ≤ fuel) :
    expandRangeGo endD fuel current = (List.range (endD - current)).map (fun k => current + k) := by
  induction fuel generalizing current with
  | zero =>
    have h0 : endD - current = 0 := by omega
    rw [expandRangeGo, h0]
    simp
  | succ n ih =>
    rw [expandRangeGo]
    split
    · rename_i hlt
      rw [ih (current + 1) (by omega)]
      have h1 : endD - current = (endD - (current + 1)) + 1 := by omega
      rw [h1, List.range_succ_eq_map, List.map_cons, List.map_map]
      have hf : (fun k => current + k) ∘ Nat.succ = fun k => (current + 1) + k := by
        funext k
        simp [Function.comp]
        omega
      rw [hf]
      simp
    · rename_i hge
      have h1 : endD - current = 0 := by omega
      rw [h1]
      simp

theorem expandRange_eq (range : DateRange) :
    expandRange range =
      (List.range (range.endDate - range.startDate)).map (fun k => range.startDate + k) :=
  expandRangeGo_eq_range range.endDate range.endDate range.startDate (Nat.sub_le _ _)

theorem expandRange_length (range : DateRange) :
    (expandRange range).length = range.endDate - range.startDate := by
  rw [expandRange_eq]
  simp

theorem expandRange_get (range : DateRange) (i : Nat)
    (h : i < (expandRange range).length) :
    (expandRange range).get ⟨i, h⟩ = range.startDate + i := by
  have hi : i < range.endDate - range.startDate := by
    have := expandRange_length range
    omega
  simp only [List.get_eq_getElem]
  have he := expandRange_eq range
  rw [List.getElem_of_eq he]
  simp

theorem expandRange_mem (range : DateRange) (d : Nat) :
    d ∈ expandRange range ↔ range.startDate ≤ d ∧ d < range.endDate := by
  rw [expandRange_eq]
  simp only [List.mem_map, List.mem_range]
  constructor
  · rintro ⟨k, hk, rfl⟩
    omega
  · intro h
    exact ⟨d - range.startDate, by omega, by omega⟩

-- ---- checkAvailability (sniper.ts lines 527-587) ----

/-- The `availByDate` lookup table: association list from day number to
remaining capacity, modelling the `Map<string, number>` built from the
division `date_availability` entries. -/
def AvailTable : Type := List (Nat × Nat)

/-- Lookup `availByDate.get(d)`: first matching entry, if any. -/
def availGet (t : AvailTable) (d : Nat) : Option Nat :=
  (List.find? (fun p => p.1 == d) t).map (fun p => p.2)

/-- One night is open: `(availByDate.get(d) ?? 0) > 0`. -/
def nightOpen (t : AvailTable) (d : Nat) : Bool :=
  decide (0 < (availGet t d).getD 0)

/-- The priority scan at the end of `checkAvailability`: the first range, in
list order, for which `expandRange(range).every(d => (availByDate.get(d) ?? 0) > 0)`. -/
def findFirstAvailable (t : AvailTable) : List DateRange → Option DateRange
  | [] => none
  | range :: rest =>
    if (expandRange range).all (fun d => nightOpen t d) then some range
    else findFirstAvailable t rest

/-- Function `checkAvailability` from sniper.ts, after a successful fetch: the division
entry may be absent (`if (!division) return null`); otherwise scan the ranges
in priority order. -/
def checkAvailability (division : Option AvailTable) (ranges : List DateRange) :
    Option DateRange :=
  match division with
  | none => none
  | some t => findFirstAvailable t ranges

/-- Function `checkAvailability` including the fallible fetch: a non-ok HTTP response
(`if (!res.ok) throw new Error(...)`) surfaces as an exception carrying the
status code. -/
def checkAvailabilityR (response : Except Nat (Option AvailTable))
    (ranges : List DateRange) : Except Nat (Option DateRange) :=
  match response with
  | .error s => .error s
  | .ok division => .ok (checkAvailability division ranges)

/-- All nights of a range have remaining capacity, as a proposition. -/
def allNightsOpen (t : AvailTable) (range : DateRange) : Prop :=
  ∀ d ∈ expandRange range, 0 < (availGet t d).getD 0

instance (t : AvailTable) (range : DateRange) : Decidable (allNightsOpen t range) := by
  unfold allNightsOpen
  infer_instance

theorem allNightsOpen_iff_all (t : AvailTable) (range : DateRange) :
    (expandRange range).all (fun d => nightOpen t d) = true ↔ allNightsOpen t range := by
  rw [List.all_eq_true]
  unfold nightOpen allNightsOpen
  simp

-- ---- Status messages written by the engine ----
-- Locale/interval formatting in the source is presentational; numbers are
-- rendered with `toString`.

def scheduledMessage (w : Nat) : String :=
  "Scheduled. Window opens at " ++ toString w ++ "."

def credsMissingMessage : String :=
  "RECGOV_EMAIL and RECGOV_PASSWORD environment variables are required for sniper jobs"

def preWarmMessage : String := "Launching browser and signing in..."

def watchingMessage : String := "Window open! Polling for availability..."

def httpErrorMessage (s : Nat) : String := "HTTP " ++ toString s

def pollErrorMessage (n s : Nat) : String :=
  "Poll #" ++ toString n ++ ": API error (" ++ httpErrorMessage s ++ "). Retrying..."

def noAvailYetMessage (n : Nat) : String :=
  "Poll #" ++ toString n ++ ": No availability yet. Next check in 1.5s..."

def detectedMessage (r : DateRange) : String :=
  "Availability detected for " ++ toString r.startDate ++ " - " ++ toString r.endDate ++
    "! Attempting to book..."

def noneFoundMessage (n : Nat) : String :=
  "No availability detected after " ++ toString n ++ " polls (300s). Window may have passed."

def bookingMessage (r : DateRange) : String :=
  "Booking " ++ toString r.startDate ++ " - " ++ toString r.endDate ++ "..."

def inCartMessage (r : DateRange) : String :=
  "Permit for " ++ toString r.startDate ++ " - " ++ toString r.endDate ++
    " added to cart! Complete your purchase on recreation.gov."

def fallbackTryMessage (r : DateRange) : String :=
  "Primary range taken. Trying fallback: " ++ toString r.startDate ++ " - " ++
    toString r.endDate ++ "..."

def fallbackInCartMessage (r : DateRange) : String :=
  "Permit for " ++ toString r.startDate ++ " - " ++ toString r.endDate ++
    " (fallback) added to cart! Complete purchase on recreation.gov."

def exhaustedMessage (n : Nat) : String :=
  "Could not book any of the desired date ranges after " ++ toString n ++ " attempts."

def sniperFailedMessage (m : String) : String := "Sniper failed: " ++ m

def cancelledMessage : String := "Cancelled by user."

def offlineFailMessage : String := "Window has already passed (server was offline)."

-- ---- createJob (sniper.ts lines 140-167) ----

/-- Function `createJob`: the freshly constructed job record (id generation and clock
are passed in explicitly). -/
def createJob (id : Nat) (now : Nat) (req : SniperJobRequest) : SniperJob :=
  { id := id
    permitId := req.permitId
    permitName := req.permitName
    divisionId := req.divisionId
    desiredDateRanges := req.desiredDateRanges
    groupSize := req.groupSize
    windowOpensAt := req.windowOpensAt
    status := .pending
    attempts := 0
    message := scheduledMessage req.windowOpensAt
    bookedRange := none
    createdAt := now
    updatedAt := now }

-- ---- getRecgovCredentials (sniper.ts lines 53-62) ----

/-- Function `getRecgovCredentials`: reads `RECGOV_EMAIL` / `RECGOV_PASSWORD`; a missing
or empty variable (falsy string) raises the explanatory error. -/
def getRecgovCredentials (email password : Option String) : Except String Credentials :=
  match email, password with
  | some e, some p =>
    if (e == "") || (p == "") then Except.error credsMissingMessage
    else Except.ok { email := e, password := p }
  | _, _ => Except.error credsMissingMessage

-- ---- Watching phase (sniper.ts lines 374-415) ----

/-- The `while (!signal.aborted && Date.now() < watchDeadline)` polling loop.
`fuel` is the number of cycles permitted by the watch deadline; `responses n`
is the availability response observed on poll number `n`. Each cycle
increments `attempts`; a thrown `checkAvailability` error is caught, logged
into `message` (then overwritten by the no-availability note further down the
loop body) and the loop continues; a found range breaks out of the loop. -/
def watchLoop (responses : Nat → Except Nat (Option AvailTable)) :
    Nat → SniperJob → SniperJob × Option DateRange
  | 0, job => (job, none)
  | fuel + 1, job =>
    let job1 := { job with attempts := job.attempts + 1 }
    match checkAvailabilityR (responses job1.attempts) job1.desiredDateRanges with
    | .error s =>
      let job2 := { job1 with message := pollErrorMessage job1.attempts s }
      let job3 := { job2 with message := noAvailYetMessage job2.attempts }
      watchLoop responses fuel job3
    | .ok (some r) => ({ job1 with message := detectedMessage r }, some r)
    | .ok none =>
      watchLoop responses fuel { job1 with message := noAvailYetMessage job1.attempts }

-- ---- Booking phase (sniper.ts lines 417-480) ----

/-- Filter `job.desiredDateRanges.filter(...)`: the ranges left to try after the
found range failed to book. -/
def remainingRangesAfter (ranges : List DateRange) (found : DateRange) : List DateRange :=
  ranges.filter (fun r => r.startDate != found.startDate || r.endDate != found.endDate)

/-- The `for (const fallbackRange of remainingRanges)` loop. For each
candidate: re-check availability for that single range (NOT wrapped in
try/catch, so a thrown HTTP error propagates to the outer catch, which sets
`status = failed` with `Sniper failed: ...`); skip if unavailable; otherwise
attempt the claim, finishing `in-cart` on success. Falling off the end of the
loop fails the job with the exhaustion message. -/
def bookingFallback (claimAttempt : DateRange → Bool)
    (availSingle : DateRange → Except Nat (Option AvailTable)) :
    List DateRange → SniperJob → SniperJob
  | [], job => { job with status := .failed, message := exhaustedMessage job.attempts }
  | r :: rest, job =>
    match checkAvailabilityR (availSingle r) [r] with
    | .error s => { job with status := .failed, message := sniperFailedMessage (httpErrorMessage s) }
    | .ok none => bookingFallback claimAttempt availSingle rest job
    | .ok (some _) =>
      let job1 := { job with message := fallbackTryMessage r }
      if claimAttempt r then
        { job1 with status := .inCart, bookedRange := some r, message := fallbackInCartMessage r }
      else bookingFallback claimAttempt availSingle rest job1

/-- Phase 3 of `runSniperJob`: mark `booking`, attempt the found range
(`attemptBrowserBooking` outcome given by `claimAttempt`), then fall back
through the remaining ranges. -/
def bookingPhase (claimAttempt : DateRange → Bool)
    (availSingle : DateRange → Except Nat (Option AvailTable))
    (found : DateRange) (job : SniperJob) : SniperJob :=
  let job1 := { job with status := .booking, message := bookingMessage found }
  if claimAttempt found then
    { job1 with status := .inCart, bookedRange := some found, message := inCartMessage found }
  else
    bookingFallback claimAttempt availSingle
      (remainingRangesAfter job1.desiredDateRanges found) job1

-- ---- runSniperJob (sniper.ts lines 299-497), sequential effects made explicit ----

/-- Phases 2 and 3 of `runSniperJob`, from the start of the watch loop: poll
until a range is found or the deadline lapses (`fuel` cycles), then either
fail (nothing found) or run the booking phase. -/
def afterPreWarm (responses : Nat → Except Nat (Option AvailTable)) (fuel : Nat)
    (claimAttempt : DateRange → Bool)
    (availSingle : DateRange → Except Nat (Option AvailTable))
    (job2 : SniperJob) : SniperJob :=
  match watchLoop responses fuel job2 with
  | (job3, none) => { job3 with status := .failed, message := noneFoundMessage job3.attempts }
  | (job3, some found) => bookingPhase claimAttempt availSingle found job3

/-- Function `runSniperJob` as a pure function of the observable outcomes of its
effects: the environment credentials, the pre-warm steps (browser launch,
sign-in, navigation — any thrown error reaches the outer catch), the per-poll
availability responses, the number of poll cycles the watch deadline allows,
the claim outcomes, and the fallback single-range availability responses.
Cancellation is modelled separately (`cancelJob` / `engineCleanup`). -/
def runSniperJobPure (email password : Option String) (preWarm : Except String Unit)
    (responses : Nat → Except Nat (Option AvailTable)) (fuel : Nat)
    (claimAttempt : DateRange → Bool)
    (availSingle : DateRange → Except Nat (Option AvailTable))
    (job : SniperJob) : SniperJob :=
  match getRecgovCredentials email password with
  | .error msg => { job with status := .failed, message := msg }
  | .ok _ =>
    let job1 := { job with status := .preWarming, message := preWarmMessage }
    match preWarm with
    | .error m => { job1 with status := .failed, message := sniperFailedMessage m }
    | .ok _ =>
      afterPreWarm responses fuel claimAttempt availSingle
        { job1 with status := .watching, message := watchingMessage }

-- ---- loadAndScheduleJobs (sniper.ts lines 214-240) ----

/-- The per-job body of the reconciliation loop in `loadAndScheduleJobs`:
a pending job is re-armed (`true`) when `windowTime + MAX_WATCH_DURATION_MS >
Date.now()`, and otherwise marked failed; non-pending jobs are loaded
unchanged and not scheduled. -/
def reconcileJob (now : Nat) (dj : SniperJob) : SniperJob × Bool :=
  if dj.status = .pending then
    if now < dj.windowOpensAt + MAX_WATCH_DURATION_MS then (dj, true)
    else ({ dj with status := .failed, message := offlineFailMessage }, false)
  else (dj, false)

/-- Function `loadAndScheduleJobs`: every persisted job is loaded into the registry
after reconciliation; the Bool records whether a trigger was scheduled. -/
def loadAndScheduleJobs (now : Nat) (diskJobs : List SniperJob) :
    List (SniperJob × Bool) :=
  diskJobs.map (reconcileJob now)

-- ---- Per-job resources: cancelJob (lines 169-201) and the engine finally block (481-496) ----

/-- The per-job slice of the module state touched by cancellation and engine
cleanup: the armed timer, the `AbortController` registration and its signal,
whether the `browsers` map holds a session for this job, and how many times
`browser.close()` has been reached for it. -/
structure EngineState where
  job : SniperJob
  timerArmed : Bool
  abortRegistered : Bool
  aborted : Bool
  sessionOpen : Bool
  closeCount : Nat
deriving DecidableEq, Repr

/-- Synchronous prefix of `cancelJob` for an existing job, up to its first
suspension point: clear the timer, abort and drop the controller, and — if a
browser is registered — reach `await b.browser.close()` (counted here;
failures are swallowed).  Crucially, `browsers.delete(id)` has NOT yet run:
it only executes after the `await` resolves, so the browser stays registered
while `close()` is in flight. -/
def cancelJobToClose (s : EngineState) : EngineState :=
  let s1 := { s with timerArmed := false }
  let s2 := { s1 with aborted := s1.aborted || s1.abortRegistered, abortRegistered := false }
  if s2.sessionOpen then { s2 with closeCount := s2.closeCount + 1 } else s2

/-- Resumption of `cancelJob` after `await b.browser.close()` resolves:
`browsers.delete(id)` (a no-op when the entry is already gone), then set
`cancelled` with its message. -/
def cancelJobFinish (s : EngineState) : EngineState :=
  let s1 := if s.sessionOpen then { s with sessionOpen := false } else s
  { s1 with job := { s1.job with status := .cancelled, message := cancelledMessage } }

/-- Function `cancelJob` for an existing job, run to completion with nothing
interleaved at its suspension point.  The engine continuation woken by
`ac.abort()` may instead run during the `await` inside `cancelJobToClose`,
giving the schedule `cancelJobFinish (engineCleanup (cancelJobToClose s))`. -/
def cancelJob (s : EngineState) : EngineState :=
  cancelJobFinish (cancelJobToClose s)

/-- The `finally` block of `runSniperJob`: drop the abort controller, and
close and drop the browser unless the job ended `in-cart` — tolerating the
browser entry being absent (already released or never created). -/
def engineCleanup (s : EngineState) : EngineState :=
  let s1 := { s with abortRegistered := false }
  if s1.job.status ≠ .inCart then
    if s1.sessionOpen then { s1 with closeCount := s1.closeCount + 1, sessionOpen := false }
    else s1
  else s1

-- ---- deleteJob (sniper.ts lines 203-208) and the DELETE route ----

/-- Function `cancelJob` at the job-store level: returns `false` for an unknown id,
otherwise marks the job cancelled and returns `true`. -/
def cancelJobStore (store : List SniperJob) (id : Nat) : List SniperJob × Bool :=
  match store.find? (fun j => j.id == id) with
  | none => (store, false)
  | some _ =>
    (store.map fun j =>
      if j.id == id then { j with status := .cancelled, message := cancelledMessage } else j,
     true)

/-- Function `deleteJob`: awaits `cancelJob` but ignores its result, removes the id
from the registry, and returns `true` unconditionally. -/
def deleteJobStore (store : List SniperJob) (id : Nat) : List SniperJob × Bool :=
  let afterCancel := (cancelJobStore store id).1
  (afterCancel.filter (fun j => j.id != id), true)

/-- Response of `DELETE /:id` in routes/sniper.ts. -/
inductive DeleteRouteResponse where
  | notFound
  | deleted
deriving DecidableEq, Repr

/-- The `DELETE /:id` handler: 404 when `deleteJob` reports `false`,
otherwise `{ deleted: true }`. -/
def deleteRoute (store : List SniperJob) (id : Nat) :
    List SniperJob × DeleteRouteResponse :=
  let res := deleteJobStore store id
  if res.2 then (res.1, .deleted) else (res.1, .notFound)

-- ---- Creation-request validation (routes/sniper.ts lines 32-45) ----

/-- The rejection test applied to each requested range:
`range.endDate <= range.startDate` draws a 400 response. -/
def rangeRejected (r : DateRange) : Bool :=
  decide (r.endDate ≤ r.startDate)

/-- A request only reaches `createJob` when no range is rejected. -/
def rangesValid (ranges : List DateRange) : Bool :=
  ranges.all (fun r => !rangeRejected r)

-- ---- Invariants and state predicates ----

/-- The spec invariant: `bookedRange`, if present, is one of the desired ranges
of the same job. -/
def bookedRangeOk (j : SniperJob) : Prop :=
  ∀ r, j.bookedRange = some r → r ∈ j.desiredDateRanges

/-- The non-terminal statuses of the state machine. -/
def nonTerminal (st : SniperStatus) : Prop :=
  st = .pending ∨ st = .preWarming ∨ st = .watching ∨ st = .booking

-- ---- Concrete instances used by witnesses and counterexamples ----

def rangeA : DateRange := DateRange.mk 10 12

def rangeB : DateRange := DateRange.mk 20 22

def sampleJob : SniperJob :=
  { id := 1
    permitId := "233273"
    permitName := "Sample Wilderness Permit"
    divisionId := "166"
    desiredDateRanges := [rangeA, rangeB]
    groupSize := 2
    windowOpensAt := 1000
    status := .pending
    attempts := 0
    message := "queued"
    bookedRange := none
    createdAt := 0
    updatedAt := 0 }

def sampleRequest : SniperJobRequest :=
  { permitId := "233273"
    permitName := "Sample Wilderness Permit"
    divisionId := "166"
    desiredDateRanges := [rangeA, rangeB]
    groupSize := 2
    windowOpensAt := 1000 }

def watchingJob : SniperJob :=
  { sampleJob with status := SniperStatus.watching }

/-- A claim step that fails on `rangeA` but would succeed on `rangeB`. -/
def claimOnlyB : DateRange → Bool := fun r => r == rangeB

/-- An availability source whose every fetch returns HTTP 503. -/
def availAlwaysError : DateRange → Except Nat (Option AvailTable) :=
  fun _ => Except.error 503

/-- An availability source showing every night of `rangeB` open. -/
def availBOpen : DateRange → Except Nat (Option AvailTable) :=
  fun _ => Except.ok (some [(20, 1), (21, 1)])

/-- A job mid-watch with a registered abort controller and an open browser. -/
def runningState : EngineState :=
  { job := watchingJob
    timerArmed := false
    abortRegistered := true
    aborted := false
    sessionOpen := true
    closeCount := 0 }

/-- A run that just ended in `failed`, its browser still registered. -/
def failedState : EngineState :=
  { runningState with job := { sampleJob with status := SniperStatus.failed } }

-- ---- Helper lemmas ----

theorem findFirstAvailable_some (t : AvailTable) (ranges : List DateRange) (r : DateRange)
    (h : findFirstAvailable t ranges = some r) :
    ∃ i, ∃ hi : i < ranges.length, ranges.get ⟨i, hi⟩ = r ∧ allNightsOpen t r ∧
      ∀ j, ∀ hj : j < ranges.length, j < i → ¬ allNightsOpen t (ranges.get ⟨j, hj⟩) := by
  induction ranges with
  | nil => simp [findFirstAvailable] at h
  | cons a rest ih =>
    rw [findFirstAvailable] at h
    by_cases hall : (expandRange a).all (fun d => nightOpen t d) = true
    · rw [if_pos hall] at h
      obtain rfl : a = r := by injection h
      refine ⟨0, by simp, rfl, (allNightsOpen_iff_all t a).mp hall, ?_⟩
      intro j hj hj0
      omega
    · rw [if_neg hall] at h
      obtain ⟨i, hi, hget, hopen, hprior⟩ := ih h
      refine ⟨i + 1, by simpa using Nat.succ_lt_succ hi, by simpa using hget, hopen, ?_⟩
      intro j hj hlt
      match j with
      | 0 =>
        simpa using fun hc => hall ((allNightsOpen_iff_all t a).mpr hc)
      | Nat.succ k =>
        have hk : k < rest.length := by simpa using Nat.lt_of_succ_lt_succ hj
        have := hprior k hk (by omega)
        simpa using this

theorem findFirstAvailable_none (t : AvailTable) (ranges : List DateRange)
    (h : findFirstAvailable t ranges = none) :
    ∀ r ∈ ranges, ¬ allNightsOpen t r := by
  induction ranges with
  | nil => simp
  | cons a rest ih =>
    rw [findFirstAvailable] at h
    by_cases hall : (expandRange a).all (fun d => nightOpen t d) = true
    · rw [if_pos hall] at h
      exact absurd h (by simp)
    · rw [if_neg hall] at h
      intro r hr
      rcases List.mem_cons.mp hr with rfl | hmem
      · exact fun hc => hall ((allNightsOpen_iff_all t r).mpr hc)
      · exact ih h r hmem

theorem checkAvailability_mem (division : Option AvailTable) (ranges : List DateRange)
    (r : DateRange) (h : checkAvailability division ranges = some r) : r ∈ ranges := by
  match division with
  | none => simp [checkAvailability] at h
  | some t =>
    obtain ⟨i, hi, hget, -, -⟩ := findFirstAvailable_some t ranges r h
    exact hget ▸ List.get_mem ranges i hi

theorem allNightsOpen_table_entries (t : AvailTable) (r : DateRange)
    (h : allNightsOpen t r) :
    ∀ d ∈ expandRange r, ∃ cap, availGet t d = some cap ∧ 0 < cap := by
  intro d hd
  have := h d hd
  match hg : availGet t d with
  | none => rw [hg] at this; simp at this
  | some cap => rw [hg] at this; exact ⟨cap, rfl, by simpa using this⟩

theorem watchLoop_fields (responses : Nat → Except Nat (Option AvailTable))
    (fuel : Nat) (job : SniperJob) :
    (watchLoop responses fuel job).1.status = job.status ∧
    (watchLoop responses fuel job).1.bookedRange = job.bookedRange ∧
    (watchLoop responses fuel job).1.desiredDateRanges = job.desiredDateRanges := by
  induction fuel generalizing job with
  | zero => simp [watchLoop]
  | succ n ih =>
    simp only [watchLoop]
    rcases hres : responses (job.attempts + 1) with s | division
    · simp only [checkAvailabilityR, hres]
      simpa using ih _
    · simp only [checkAvailabilityR, hres]
      rcases hca : checkAvailability division job.desiredDateRanges with _ | r
      · simpa using ih _
      · simp

theorem watchLoop_found_mem (responses : Nat → Except Nat (Option AvailTable))
    (fuel : Nat) (job : SniperJob) (r : DateRange)
    (h : (watchLoop responses fuel job).2 = some r) :
    r ∈ job.desiredDateRanges := by
  induction fuel generalizing job with
  | zero => simp [watchLoop] at h
  | succ n ih =>
    simp only [watchLoop] at h
    rcases hres : responses (job.attempts + 1) with s | division
    · simp only [checkAvailabilityR, hres] at h
      simpa using ih _ h
    · simp only [checkAvailabilityR, hres] at h
      rcases hca : checkAvailability division job.desiredDateRanges with _ | r0
      · rw [hca] at h
        simp only at h
        simpa using ih _ h
      · rw [hca] at h
        simp only at h
        obtain rfl : r0 = r := by simpa using h
        exact checkAvailability_mem division job.desiredDateRanges _ hca

-- ---- bookedRange invariant machinery ----

theorem bookingFallback_preserves (claimAttempt : DateRange → Bool)
    (availSingle : DateRange → Except Nat (Option AvailTable))
    (rs : List DateRange) (j : SniperJob)
    (hok : bookedRangeOk j) (hsub : ∀ x ∈ rs, x ∈ j.desiredDateRanges) :
    bookedRangeOk (bookingFallback claimAttempt availSingle rs j) := by
  induction rs generalizing j with
  | nil =>
    intro r h
    exact hok r h
  | cons a rest ih =>
    simp only [bookingFallback]
    split
    · exact fun r h => hok r h
    · exact ih j hok (fun x hx => hsub x (List.mem_cons_of_mem a hx))
    · split
      · intro r h
        have ha : a = r := by simpa using h
        subst ha
        exact hsub a (List.mem_cons_self a rest)
      · exact ih _ (fun r h => hok r h) (fun x hx => hsub x (List.mem_cons_of_mem a hx))

theorem bookingPhase_preserves (claimAttempt : DateRange → Bool)
    (availSingle : DateRange → Except Nat (Option AvailTable))
    (found : DateRange) (j : SniperJob)
    (hok : bookedRangeOk j) (hmem : found ∈ j.desiredDateRanges) :
    bookedRangeOk (bookingPhase claimAttempt availSingle found j) := by
  simp only [bookingPhase]
  split
  · intro r h
    have hf : found = r := by simpa using h
    subst hf
    exact hmem
  · apply bookingFallback_preserves
    · exact fun r h => hok r h
    · intro x hx
      unfold remainingRangesAfter at hx
      exact (List.mem_filter.mp hx).1

theorem afterPreWarm_preserves (responses : Nat → Except Nat (Option AvailTable))
    (fuel : Nat) (claimAttempt : DateRange → Bool)
    (availSingle : DateRange → Except Nat (Option AvailTable))
    (j2 : SniperJob) (hok : bookedRangeOk j2) :
    bookedRangeOk (afterPreWarm responses fuel claimAttempt availSingle j2) := by
  unfold afterPreWarm
  rcases hw : watchLoop responses fuel j2 with ⟨j3, found⟩
  obtain ⟨hst, hbr, hdr⟩ := watchLoop_fields responses fuel j2
  rw [hw] at hst hbr hdr
  cases found with
  | none =>
    intro r h
    show r ∈ j3.desiredDateRanges
    rw [hdr]
    apply hok
    rw [← hbr]
    exact h
  | some f =>
    apply bookingPhase_preserves
    · intro r h
      show r ∈ j3.desiredDateRanges
      rw [hdr]
      apply hok
      rw [← hbr]
      exact h
    · have hm := watchLoop_found_mem responses fuel j2 f (by rw [hw])
      rw [hdr]
      exact hm

theorem runSniperJobPure_preserves (email password : Option String)
    (preWarm : Except String Unit) (responses : Nat → Except Nat (Option AvailTable))
    (fuel : Nat) (claimAttempt : DateRange → Bool)
    (availSingle : DateRange → Except Nat (Option AvailTable))
    (j : SniperJob) (hok : bookedRangeOk j) :
    bookedRangeOk
      (runSniperJobPure email password preWarm responses fuel claimAttempt availSingle j) := by
  unfold runSniperJobPure
  cases hcred : getRecgovCredentials email password with
  | error msg => exact fun r h => hok r h
  | ok c =>
    cases preWarm with
    | error m => exact fun r h => hok r h
    | ok u => exact afterPreWarm_preserves _ _ _ _ _ (fun r h => hok r h)

-- ---- Claim theorems ----

/-- C1: for every availability table and priority-ordered range list,
`checkAvailability` returns the first range in list order all of whose nights
have remaining capacity strictly greater than 0 (so it never returns a range
with a night at capacity 0 or absent from the table — every night of the
returned range has a table entry with positive capacity), and returns none
when no range qualifies. -/
theorem checkAvailability_first_fully_open (t : AvailTable) (ranges : List DateRange) :
    (∀ r, checkAvailability (some t) ranges = some r →
      allNightsOpen t r ∧
      (∀ d ∈ expandRange r, ∃ cap, availGet t d = some cap ∧ 0 < cap) ∧
      ∃ i, ∃ hi : i < ranges.length, ranges.get ⟨i, hi⟩ = r ∧
        ∀ j, ∀ hj : j < ranges.length, j < i → ¬ allNightsOpen t (ranges.get ⟨j, hj⟩)) ∧
    (checkAvailability (some t) ranges = none → ∀ r ∈ ranges, ¬ allNightsOpen t r) := by
  constructor
  · intro r h
    obtain ⟨i, hi, hget, hopen, hprior⟩ := findFirstAvailable_some t ranges r h
    exact ⟨hopen, allNightsOpen_table_entries t r hopen, i, hi, hget, hprior⟩
  · intro h
    exact findFirstAvailable_none t ranges h

theorem checkAvailability_first_fully_open_witness :
    checkAvailability (some [(10, 2), (11, 1), (12, 0)])
        [DateRange.mk 12 14, DateRange.mk 10 12] = some (DateRange.mk 10 12) ∧
    (allNightsOpen [(10, 2), (11, 1), (12, 0)] (DateRange.mk 10 12) ∧
      (∀ d ∈ expandRange (DateRange.mk 10 12), ∃ cap,
        availGet [(10, 2), (11, 1), (12, 0)] d = some cap ∧ 0 < cap) ∧
      ∃ i, ∃ hi : i < ([DateRange.mk 12 14, DateRange.mk 10 12] : List DateRange).length,
        ([DateRange.mk 12 14, DateRange.mk 10 12] : List DateRange).get ⟨i, hi⟩ =
          DateRange.mk 10 12 ∧
        ∀ j, ∀ hj : j < ([DateRange.mk 12 14, DateRange.mk 10 12] : List DateRange).length,
          j < i →
          ¬ allNightsOpen [(10, 2), (11, 1), (12, 0)]
              (([DateRange.mk 12 14, DateRange.mk 10 12] : List DateRange).get ⟨j, hj⟩)) :=
  ⟨by decide,
   (checkAvailability_first_fully_open [(10, 2), (11, 1), (12, 0)]
       [DateRange.mk 12 14, DateRange.mk 10 12]).1 (DateRange.mk 10 12) (by decide)⟩

/-- C8: for every range with end strictly after start, `expandRange` yields
exactly `end - start` dates, consecutive from the start date, excluding the
end date.  Determinism is inherent: the embedding is a pure function of the
range. -/
theorem expandRange_consecutive_nights (range : DateRange)
    (h : range.startDate < range.endDate) :
    (expandRange range).length = range.endDate - range.startDate ∧
    (∀ i, ∀ hi : i < (expandRange range).length,
      (expandRange range).get ⟨i, hi⟩ = range.startDate + i) ∧
    range.endDate ∉ expandRange range := by
  refine ⟨expandRange_length range, expandRange_get range, ?_⟩
  rw [expandRange_mem]
  omega

theorem expandRange_consecutive_nights_witness :
    (DateRange.mk 10 13).startDate < (DateRange.mk 10 13).endDate ∧
    ((expandRange (DateRange.mk 10 13)).length =
        (DateRange.mk 10 13).endDate - (DateRange.mk 10 13).startDate ∧
      (∀ i, ∀ hi : i < (expandRange (DateRange.mk 10 13)).length,
        (expandRange (DateRange.mk 10 13)).get ⟨i, hi⟩ = (DateRange.mk 10 13).startDate + i) ∧
      (DateRange.mk 10 13).endDate ∉ expandRange (DateRange.mk 10 13)) :=
  ⟨by decide, expandRange_consecutive_nights (DateRange.mk 10 13) (by decide)⟩

/-- C9: `deleteJob` ignores the result of `cancelJob` and returns true for every
id, so the DELETE route answers `{deleted: true}` even for unknown ids and
its 404 branch is unreachable. -/
theorem deleteJob_always_reports_deleted (store : List SniperJob) (id : Nat) :
    (deleteJobStore store id).2 = true ∧
    (deleteRoute store id).2 = DeleteRouteResponse.deleted :=
  ⟨rfl, rfl⟩

/-- C10: a range with end ≤ start expands to no nights, so
`checkAvailability` accepts it vacuously and returns it immediately whatever
the table says; such a range can never pass the creation-time validation
(`endDate <= startDate` is rejected with a 400), so the branch is
unreachable for validated jobs. -/
theorem degenerate_range_vacuously_selected (r : DateRange)
    (h : r.endDate ≤ r.startDate) :
    expandRange r = [] ∧
    (∀ t : AvailTable, ∀ rest : List DateRange,
      checkAvailability (some t) (r :: rest) = some r) ∧
    (∀ ranges : List DateRange, r ∈ ranges → rangesValid ranges = false) := by
  have hemp : expandRange r = [] := by
    rw [expandRange_eq]
    have h0 : r.endDate - r.startDate = 0 := by omega
    rw [h0]
    rfl
  refine ⟨hemp, ?_, ?_⟩
  · intro t rest
    simp [checkAvailability, findFirstAvailable, hemp]
  · intro ranges hr
    by_contra hne
    have hval : rangesValid ranges = true := by
      cases hv : rangesValid ranges
      · exact absurd hv hne
      · rfl
    unfold rangesValid at hval
    have hall := List.all_eq_true.mp hval r hr
    simp [rangeRejected] at hall
    omega

theorem degenerate_range_vacuously_selected_witness :
    (DateRange.mk 5 5).endDate ≤ (DateRange.mk 5 5).startDate ∧
    (expandRange (DateRange.mk 5 5) = [] ∧
      (∀ t : AvailTable, ∀ rest : List DateRange,
        checkAvailability (some t) (DateRange.mk 5 5 :: rest) = some (DateRange.mk 5 5)) ∧
      (∀ ranges : List DateRange, DateRange.mk 5 5 ∈ ranges → rangesValid ranges = false)) :=
  ⟨by decide, degenerate_range_vacuously_selected (DateRange.mk 5 5) (by decide)⟩

/-- C2 counterexample: the claim attempt on the detected range fails; the
fallback re-query for the next range raises HTTP 503.  The error escapes the
booking phase to the outer catch, which sets the job `failed` — although with
a successful re-query the same job would have ended `in-cart`.  So an
upstream HTTP error during the booking-phase fallback re-query does move the
job to `failed`, contradicting the claim. -/
theorem transient_error_policy_cex :
    (bookingPhase claimOnlyB availAlwaysError rangeA watchingJob).status =
      SniperStatus.failed ∧
    (bookingPhase claimOnlyB availAlwaysError rangeA watchingJob).message =
      sniperFailedMessage (httpErrorMessage 503) ∧
    (bookingPhase claimOnlyB availBOpen rangeA watchingJob).status =
      SniperStatus.inCart :=
  ⟨rfl, rfl, rfl⟩

/-- C2 amended: a poll failure during the watching phase is absorbed by the
watch loop (the status never changes inside it), and a failed claim on the
found range stays within the booking phase, proceeding to the fallback scan;
but an HTTP error raised while re-querying availability for a fallback range
propagates to the outer handler, which moves the job to `failed`. -/
theorem transient_error_policy (responses : Nat → Except Nat (Option AvailTable))
    (fuel : Nat) (job : SniperJob) (claimAttempt : DateRange → Bool)
    (availSingle : DateRange → Except Nat (Option AvailTable)) :
    ((watchLoop responses fuel job).1.status = job.status) ∧
    (∀ found, claimAttempt found = false →
      bookingPhase claimAttempt availSingle found job =
        bookingFallback claimAttempt availSingle
          (remainingRangesAfter job.desiredDateRanges found)
          { job with status := SniperStatus.booking, message := bookingMessage found }) ∧
    (∀ r rest j s, availSingle r = Except.error s →
      (bookingFallback claimAttempt availSingle (r :: rest) j).status =
        SniperStatus.failed ∧
      (bookingFallback claimAttempt availSingle (r :: rest) j).message =
        sniperFailedMessage (httpErrorMessage s)) := by
  refine ⟨(watchLoop_fields responses fuel job).1, ?_, ?_⟩
  · intro found hcf
    simp only [bookingPhase, hcf]
    simp
  · intro r rest j s hav
    constructor
    · simp only [bookingFallback, checkAvailabilityR, hav]
    · simp only [bookingFallback, checkAvailabilityR, hav]

theorem transient_error_policy_witness :
    ((watchLoop (fun _ => Except.ok none) 1 watchingJob).1.status = watchingJob.status) ∧
    (claimOnlyB rangeA = false ∧
      bookingPhase claimOnlyB availAlwaysError rangeA watchingJob =
        bookingFallback claimOnlyB availAlwaysError
          (remainingRangesAfter watchingJob.desiredDateRanges rangeA)
          { watchingJob with
              status := SniperStatus.booking
              message := bookingMessage rangeA }) ∧
    (availAlwaysError rangeB = Except.error 503 ∧
      ((bookingFallback claimOnlyB availAlwaysError [rangeB] sampleJob).status =
          SniperStatus.failed ∧
        (bookingFallback claimOnlyB availAlwaysError [rangeB] sampleJob).message =
          sniperFailedMessage (httpErrorMessage 503))) :=
  ⟨(transient_error_policy (fun _ => Except.ok none) 1 watchingJob claimOnlyB
      availAlwaysError).1,
   ⟨rfl,
    (transient_error_policy (fun _ => Except.ok none) 1 watchingJob claimOnlyB
        availAlwaysError).2.1 rangeA rfl⟩,
   ⟨rfl,
    (transient_error_policy (fun _ => Except.ok none) 1 watchingJob claimOnlyB
        availAlwaysError).2.2 rangeB [] sampleJob 503 rfl⟩⟩

/-- C3 counterexample: the trigger fires for a pending job while the
credential environment variables are absent; the engine sets the job
`failed` (with the explanatory message), so it does not remain `pending`. -/
theorem missing_credentials_cex :
    sampleJob.status = SniperStatus.pending ∧
    (runSniperJobPure none none (Except.ok ()) (fun _ => Except.ok none) 0
        (fun _ => false) (fun _ => Except.ok none) sampleJob).status =
      SniperStatus.failed ∧
    ¬ ((runSniperJobPure none none (Except.ok ()) (fun _ => Except.ok none) 0
        (fun _ => false) (fun _ => Except.ok none) sampleJob).status =
      SniperStatus.pending) :=
  ⟨rfl, rfl, by decide⟩

/-- C3 amended: when the trigger fires with credentials absent, the job
moves from `pending` to `failed` (never to `pre-warming`), with the message
capturing the root cause — the structural-error policy, not the
remain-`pending` policy. -/
theorem missing_credentials_fail_fast (email password : Option String)
    (preWarm : Except String Unit) (responses : Nat → Except Nat (Option AvailTable))
    (fuel : Nat) (claimAttempt : DateRange → Bool)
    (availSingle : DateRange → Except Nat (Option AvailTable))
    (job : SniperJob) (msg : String)
    (h : getRecgovCredentials email password = Except.error msg) :
    runSniperJobPure email password preWarm responses fuel claimAttempt availSingle job =
      { job with status := SniperStatus.failed, message := msg } ∧
    msg = credsMissingMessage := by
  constructor
  · unfold runSniperJobPure
    rw [h]
  · unfold getRecgovCredentials at h
    rcases email with _ | e
    · injection h with h1
      exact h1.symm
    · rcases password with _ | p
      · injection h with h1
        exact h1.symm
      · dsimp only at h
        by_cases hc : ((e == "") || (p == "")) = true
        · rw [if_pos hc] at h
          injection h with h1
          exact h1.symm
        · rw [if_neg hc] at h
          exact absurd h (by simp)

theorem missing_credentials_fail_fast_witness :
    getRecgovCredentials none none = Except.error credsMissingMessage ∧
    (runSniperJobPure none none (Except.ok ()) (fun _ => Except.ok none) 1
        (fun _ => false) (fun _ => Except.ok none) sampleJob =
      { sampleJob with status := SniperStatus.failed, message := credsMissingMessage } ∧
      credsMissingMessage = credsMissingMessage) :=
  ⟨rfl,
   missing_credentials_fail_fast none none (Except.ok ()) (fun _ => Except.ok none) 1
     (fun _ => false) (fun _ => Except.ok none) sampleJob credsMissingMessage rfl⟩

/-- C4 counterexample: at the instant `now = windowOpensAt +
MAX_WATCH_DURATION_MS` exactly, the bound is not earlier than the current
time, so the claim requires re-arming — yet the code (which re-arms only
when `windowTime + MAX_WATCH_DURATION_MS > Date.now()`) marks the job failed
and schedules nothing. -/
theorem loadAndScheduleJobs_boundary_cex :
    ¬ (sampleJob.windowOpensAt + MAX_WATCH_DURATION_MS < 301000) ∧
    sampleJob.status = SniperStatus.pending ∧
    loadAndScheduleJobs 301000 [sampleJob] =
      [({ sampleJob with
          status := SniperStatus.failed
          message := offlineFailMessage }, false)] :=
  ⟨by decide, rfl, rfl⟩

/-- C4 amended: a persisted pending job is marked failed (with the
window-passed message) when `windowOpensAt + MAX_WATCH_DURATION_MS` is at or
before the current time, and re-armed when it is strictly later; persisted
jobs in any other status are loaded unchanged and not re-armed. -/
theorem loadAndScheduleJobs_reconcile (now : Nat) (dj : SniperJob) :
    (dj.status = SniperStatus.pending →
      dj.windowOpensAt + MAX_WATCH_DURATION_MS ≤ now →
      reconcileJob now dj =
        ({ dj with
          status := SniperStatus.failed
          message := offlineFailMessage }, false)) ∧
    (dj.status = SniperStatus.pending →
      now < dj.windowOpensAt + MAX_WATCH_DURATION_MS →
      reconcileJob now dj = (dj, true)) ∧
    (dj.status ≠ SniperStatus.pending → reconcileJob now dj = (dj, false)) ∧
    (∀ diskJobs : List SniperJob,
      loadAndScheduleJobs now diskJobs = diskJobs.map (reconcileJob now)) := by
  refine ⟨?_, ?_, ?_, fun _ => rfl⟩
  · intro hp ht
    unfold reconcileJob
    rw [if_pos hp, if_neg (by omega)]
  · intro hp ht
    unfold reconcileJob
    rw [if_pos hp, if_pos ht]
  · intro hp
    unfold reconcileJob
    rw [if_neg hp]

theorem loadAndScheduleJobs_reconcile_witness :
    (sampleJob.status = SniperStatus.pending ∧
      sampleJob.windowOpensAt + MAX_WATCH_DURATION_MS ≤ 600000 ∧
      reconcileJob 600000 sampleJob =
        ({ sampleJob with
            status := SniperStatus.failed
            message := offlineFailMessage }, false)) ∧
    (0 < sampleJob.windowOpensAt + MAX_WATCH_DURATION_MS ∧
      reconcileJob 0 sampleJob = (sampleJob, true)) :=
  ⟨⟨rfl, by decide,
    (loadAndScheduleJobs_reconcile 600000 sampleJob).1 rfl (by decide)⟩,
   ⟨by decide, (loadAndScheduleJobs_reconcile 0 sampleJob).2.1 rfl (by decide)⟩⟩

/-- C5 counterexample: cancellation overlapping an in-flight poll.
`cancelJob` calls `ac.abort()` and then suspends in `await b.browser.close()`
— before `browsers.delete(id)` has run.  The abort wakes the engine, whose
`finally` block runs during that suspension: it still sees the non-terminal
status and, with the browser still registered, reaches `browser.close()` a
second time.  Starting from a watching job with one open session and close
count 0, the realizable overlapping schedule ends with the session closed
twice, refuting the exactly-once claim (the sequential schedule, also shown,
closes it once). -/
theorem cancelJob_double_close_cex :
    runningState.sessionOpen = true ∧
    runningState.closeCount = 0 ∧
    nonTerminal runningState.job.status ∧
    (cancelJobFinish (engineCleanup (cancelJobToClose runningState))).closeCount = 2 ∧
    (cancelJobFinish (engineCleanup (cancelJobToClose runningState))).job.status =
      SniperStatus.cancelled ∧
    (engineCleanup (cancelJob runningState)).closeCount = 1 :=
  ⟨rfl, rfl, Or.inr (Or.inr (Or.inl rfl)), rfl, rfl, rfl⟩

/-- C5 amended: cancelling an existing non-terminal job ends with status
`cancelled` under both schedules, and closing tolerates the session being
already released or never created (no close happens then).  When the engine
cleanup runs after cancellation has completed — in particular after
`browsers.delete(id)` — an open session is closed exactly once.  But
cancellation is not atomic: the registry entry is removed only after `await
browser.close()` resolves, and in the realizable schedule where the abort
wakes the engine and its `finally` runs during that await, the cleanup finds
the session still registered under the still-non-terminal status and
`browser.close()` is reached a second time — twice in total. -/
theorem cancelJob_close_schedules (s : EngineState)
    (h : nonTerminal s.job.status) :
    (cancelJob s).job.status = SniperStatus.cancelled ∧
    (cancelJobFinish (engineCleanup (cancelJobToClose s))).job.status =
      SniperStatus.cancelled ∧
    (s.sessionOpen = true →
      (engineCleanup (cancelJob s)).closeCount = s.closeCount + 1 ∧
      (engineCleanup (cancelJob s)).sessionOpen = false ∧
      (cancelJobFinish (engineCleanup (cancelJobToClose s))).closeCount =
        s.closeCount + 2 ∧
      (cancelJobFinish (engineCleanup (cancelJobToClose s))).sessionOpen = false) ∧
    (s.sessionOpen = false →
      (engineCleanup (cancelJob s)).closeCount = s.closeCount ∧
      (cancelJobFinish (engineCleanup (cancelJobToClose s))).closeCount =
        s.closeCount) := by
  have hne : ¬ s.job.status = SniperStatus.inCart := by
    rcases h with h1 | h1 | h1 | h1 <;> simp [h1]
  rcases s with ⟨job, ta, ar, ab, so, cc⟩
  simp only at hne
  cases so <;>
    simp [cancelJob, cancelJobToClose, cancelJobFinish, engineCleanup, hne]

theorem cancelJob_close_schedules_witness :
    nonTerminal runningState.job.status ∧
    ((cancelJob runningState).job.status = SniperStatus.cancelled ∧
      (cancelJobFinish (engineCleanup (cancelJobToClose runningState))).job.status =
        SniperStatus.cancelled ∧
      (runningState.sessionOpen = true →
        (engineCleanup (cancelJob runningState)).closeCount =
          runningState.closeCount + 1 ∧
        (engineCleanup (cancelJob runningState)).sessionOpen = false ∧
        (cancelJobFinish (engineCleanup (cancelJobToClose runningState))).closeCount =
          runningState.closeCount + 2 ∧
        (cancelJobFinish (engineCleanup (cancelJobToClose runningState))).sessionOpen =
          false) ∧
      (runningState.sessionOpen = false →
        (engineCleanup (cancelJob runningState)).closeCount = runningState.closeCount ∧
        (cancelJobFinish (engineCleanup (cancelJobToClose runningState))).closeCount =
          runningState.closeCount)) :=
  ⟨Or.inr (Or.inr (Or.inl rfl)),
   cancelJob_close_schedules runningState (Or.inr (Or.inr (Or.inl rfl)))⟩

/-- C6: the cleanup of the engine releases the session (closing the browser and
removing it from the registry) whenever the terminal status is `failed` or
`cancelled`, and when the terminal status is `in-cart` it deliberately keeps
the session: the state is untouched except for dropping the abort
controller. -/
theorem terminal_session_release_policy (s : EngineState) :
    ((s.job.status = SniperStatus.failed ∨ s.job.status = SniperStatus.cancelled) →
      (engineCleanup s).sessionOpen = false ∧
      (s.sessionOpen = true → (engineCleanup s).closeCount = s.closeCount + 1) ∧
      (s.sessionOpen = false → (engineCleanup s).closeCount = s.closeCount)) ∧
    (s.job.status = SniperStatus.inCart →
      engineCleanup s = { s with abortRegistered := false }) := by
  constructor
  · intro hterm
    have hne : ¬ s.job.status = SniperStatus.inCart := by
      rcases hterm with h | h <;> simp [h]
    rcases s with ⟨job, ta, ar, ab, so, cc⟩
    cases so <;> simp_all [engineCleanup]
  · intro hic
    rcases s with ⟨job, ta, ar, ab, so, cc⟩
    simp_all [engineCleanup]

theorem terminal_session_release_policy_witness :
    (failedState.job.status = SniperStatus.failed ∨
      failedState.job.status = SniperStatus.cancelled) ∧
    ((engineCleanup failedState).sessionOpen = false ∧
      (failedState.sessionOpen = true →
        (engineCleanup failedState).closeCount = failedState.closeCount + 1) ∧
      (failedState.sessionOpen = false →
        (engineCleanup failedState).closeCount = failedState.closeCount)) :=
  ⟨Or.inl rfl, (terminal_session_release_policy failedState).1 (Or.inl rfl)⟩

/-- C7: `bookedRange` starts out none at creation and every engine operation
preserves membership of `bookedRange` (when present) in the desired-range
list of the same job: the full engine run (which only ever assigns it the
range found by `checkAvailability` over that list, or a fallback drawn
from a filter of that list), cancellation, and startup reconciliation. -/
theorem bookedRange_invariant (idv now : Nat) (req : SniperJobRequest)
    (email password : Option String) (preWarm : Except String Unit)
    (responses : Nat → Except Nat (Option AvailTable)) (fuel : Nat)
    (claimAttempt : DateRange → Bool)
    (availSingle : DateRange → Except Nat (Option AvailTable))
    (job : SniperJob) (s : EngineState) (recNow : Nat) :
    ((createJob idv now req).bookedRange = none ∧ bookedRangeOk (createJob idv now req)) ∧
    (bookedRangeOk job →
      bookedRangeOk
        (runSniperJobPure email password preWarm responses fuel claimAttempt availSingle job)) ∧
    (bookedRangeOk s.job → bookedRangeOk (cancelJob s).job) ∧
    (bookedRangeOk job → bookedRangeOk (reconcileJob recNow job).1) := by
  refine ⟨⟨rfl, fun r h => nomatch h⟩,
    fun hok => runSniperJobPure_preserves email password preWarm responses fuel
      claimAttempt availSingle job hok, ?_, ?_⟩
  · rcases s with ⟨sj, ta, ar, ab, so, cc⟩
    cases so <;> exact fun hok r h => hok r h
  · intro hok
    unfold reconcileJob
    split
    · split
      · exact fun r h => hok r h
      · exact fun r h => hok r h
    · exact fun r h => hok r h

theorem bookedRange_invariant_witness :
    bookedRangeOk sampleJob ∧
    ((createJob 7 0 sampleRequest).bookedRange = none ∧
      bookedRangeOk (createJob 7 0 sampleRequest)) ∧
    bookedRangeOk (runSniperJobPure none none (Except.ok ()) (fun _ => Except.ok none) 1
      claimOnlyB availAlwaysError sampleJob) ∧
    bookedRangeOk (cancelJob runningState).job ∧
    bookedRangeOk (reconcileJob 0 sampleJob).1 := by
  have hok : bookedRangeOk sampleJob := fun r h => nomatch h
  have hokR : bookedRangeOk runningState.job := fun r h => nomatch h
  exact ⟨hok,
    (bookedRange_invariant 7 0 sampleRequest none none (Except.ok ())
      (fun _ => Except.ok none) 1 claimOnlyB availAlwaysError sampleJob runningState 0).1,
    (bookedRange_invariant 7 0 sampleRequest none none (Except.ok ())
      (fun _ => Except.ok none) 1 claimOnlyB availAlwaysError sampleJob runningState 0).2.1 hok,
    (bookedRange_invariant 7 0 sampleRequest none none (Except.ok ())
      (fun _ => Except.ok none) 1 claimOnlyB availAlwaysError sampleJob runningState 0).2.2.1 hokR,
    (bookedRange_invariant 7 0 sampleRequest none none (Except.ok ())
      (fun _ => Except.ok none) 1 claimOnlyB availAlwaysError sampleJob runningState 0).2.2.2 hok⟩
